import Mathlib

/-!
Shallow embedding of the proofEth block/transaction verifier.

Bytes are modelled as `Nat` values in plain lists; the canonical
length-prefixed encoding (RLP, provided in the Rust source by `alloy_rlp`)
is reproduced here byte for byte, following the call sites in
`src/block.rs`, `src/transaction.rs`, `src/receipt.rs` and `src/utils.rs`.
The collision-resistant hash and the radix-trie engine are external
collaborators of the program; they enter the model as function parameters
over the byte sequences (respectively the leaf list) the program hands
them.  The model was cross-checked against every test fixture of the
repository: the legacy-, 1559- and header-encoding hashes match the
expected values canonically, while the 2930 fixture hash matches only the
encoding that includes the signature length discrepancy modelled below.
-/

namespace ProofEth

set_option maxRecDepth 8000

/-- Byte sequences; each entry is a byte value. -/
abbrev Bytes := List Nat

/-- Minimal big-endian byte expansion, with a structural fuel so that the
definition evaluates inside the kernel.  `n + 1` units of fuel always
suffice since the byte count of `n` is at most `n`. -/
def beBytesAux : Nat → Nat → Bytes
  | 0, _ => []
  | fuel + 1, n => if n = 0 then [] else beBytesAux fuel (n / 256) ++ [n % 256]

/-- Minimal big-endian bytes of a natural number (empty for zero). -/
def beBytes (n : Nat) : Bytes := beBytesAux (n + 1) n

/-- RLP of an unsigned integer as `alloy_rlp` encodes machine integers:
zero is the empty string marker `0x80`, one small byte stands for itself,
larger values get a `0x80 + len` prefix (their width never reaches 56
bytes for the 256-bit-and-under integers the program encodes). -/
def rlpNat (n : Nat) : Bytes :=
  if n = 0 then [0x80]
  else if n < 0x80 then [n]
  else (0x80 + (beBytes n).length) :: beBytes n

/-- RLP of a byte string (`alloy_rlp` slice encoding). -/
def rlpBytes (bs : Bytes) : Bytes :=
  if bs.length = 1 ∧ bs.headD 0 < 0x80 then bs
  else if bs.length < 56 then (0x80 + bs.length) :: bs
  else (0xb7 + (beBytes bs.length).length) :: (beBytes bs.length ++ bs)

/-- RLP header of a list with the given payload length
(`alloy_rlp::Header { list: true, payload_length }`). -/
def listHeader (payloadLength : Nat) : Bytes :=
  if payloadLength < 56 then [0xc0 + payloadLength]
  else (0xf7 + (beBytes payloadLength).length) :: beBytes payloadLength

/-- RLP of a boolean (`alloy_rlp`: true ↦ `0x01`, false ↦ `0x80`). -/
def rlpBool (b : Bool) : Bytes := if b then [1] else [0x80]

/-- `alloy_trie::Nibbles::unpack`: split every byte into its two halves. -/
def nibbles : Bytes → List Nat
  | [] => []
  | b :: bs => b / 16 :: b % 16 :: nibbles bs

/-- `index_for_rlp` from `src/utils.rs`. -/
def index_for_rlp (i len : Nat) : Nat :=
  if 0x7f < i then i
  else if i = 0x7f ∨ i + 1 = len then 0
  else i + 1

/-- Strict lexicographic order on nibble sequences, the order in which the
trie engine demands its leaf keys. -/
def lexLt : List Nat → List Nat → Bool
  | _, [] => false
  | [], _ :: _ => true
  | a :: as, b :: bs => if a < b then true else if b < a then false else lexLt as bs

/-- `Signature` from `src/transaction.rs`: three 256-bit integers. -/
structure Signature where
  v : Nat
  r : Nat
  s : Nat
deriving DecidableEq

/-- The inherent `Signature::encode`: v, r, s emitted flat, no header. -/
def Signature.encode (sig : Signature) : Bytes :=
  rlpNat sig.v ++ rlpNat sig.r ++ rlpNat sig.s

/-- Payload length of the derived (`RlpEncodable`) list form of a
signature: the summed widths of v, r and s. -/
def Signature.rlpPayloadLength (sig : Signature) : Nat :=
  (rlpNat sig.v).length + (rlpNat sig.r).length + (rlpNat sig.s).length

/-- The derived `Encodable::length` for `Signature`: the length of the
list form, its header included.  This, not the flat form's length, is
what `self.signature.length()` returns inside `Tx2930::payload_length`. -/
def Signature.rlpLength (sig : Signature) : Nat :=
  (listHeader sig.rlpPayloadLength).length + sig.rlpPayloadLength

/-- `AccessListItem` from `src/transaction.rs`. -/
structure AccessListItem where
  address : Bytes
  storage_key : List Bytes
deriving DecidableEq

/-- Derived RLP of one access-list item: list-of(address, list of keys). -/
def AccessListItem.encode (item : AccessListItem) : Bytes :=
  let keysPayload := (item.storage_key.map rlpBytes).flatten
  let keys := listHeader keysPayload.length ++ keysPayload
  let payload := rlpBytes item.address ++ keys
  listHeader payload.length ++ payload

/-- RLP of a whole access list (`Vec<AccessListItem>`). -/
def accessListEncode (l : List AccessListItem) : Bytes :=
  let payload := (l.map AccessListItem.encode).flatten
  listHeader payload.length ++ payload

/-- A log entry (`alloy_primitives::Log`). -/
structure Log where
  address : Bytes
  topics : List Bytes
  data : Bytes
deriving DecidableEq

/-- RLP of one log: list-of(address, list of topics, data). -/
def Log.encode (l : Log) : Bytes :=
  let topicsPayload := (l.topics.map rlpBytes).flatten
  let topicsList := listHeader topicsPayload.length ++ topicsPayload
  let payload := rlpBytes l.address ++ topicsList ++ rlpBytes l.data
  listHeader payload.length ++ payload

/-- RLP of a log list (`Vec<Log>`). -/
def logsEncode (ls : List Log) : Bytes :=
  let payload := (ls.map Log.encode).flatten
  listHeader payload.length ++ payload

/-- `VerifiedReceipt` from `src/receipt.rs`. -/
structure VerifiedReceipt where
  transaction_type : Option Nat
  status : Bool
  cumulative_gas_used : Nat
  logs : List Log
  logs_bloom : Bytes
deriving DecidableEq

/-- `VerifiedReceipt::payload_length` as written in the source: note that
the last summand is `self.logs.len()`, the NUMBER of logs, not the
encoded length of the log list. -/
def VerifiedReceipt.payload_length (r : VerifiedReceipt) : Nat :=
  (rlpBool r.status).length + (rlpNat r.cumulative_gas_used).length
    + (rlpBytes r.logs_bloom).length + r.logs.length

/-- The member encodings `VerifiedReceipt::encode` emits after its header,
in source order. -/
def VerifiedReceipt.members (r : VerifiedReceipt) : Bytes :=
  rlpBool r.status ++ rlpNat r.cumulative_gas_used
    ++ rlpBytes r.logs_bloom ++ logsEncode r.logs

/-- `VerifiedReceipt::encode`: optional type-tag byte, list header, then
the members. -/
def VerifiedReceipt.encode (r : VerifiedReceipt) : Bytes :=
  (match r.transaction_type with
    | some t => [t]
    | none => [])
    ++ listHeader r.payload_length ++ r.members

/-- The all-default receipt (`VerifiedReceipt::default()`): no tag, false
status, zero gas, no logs, zero 256-byte bloom. -/
def VerifiedReceipt.defaultReceipt : VerifiedReceipt :=
  { transaction_type := none, status := false, cumulative_gas_used := 0,
    logs := [], logs_bloom := List.replicate 256 0 }

/-- `TxLegacy` from `src/transaction.rs`. -/
structure TxLegacy where
  nonce : Nat
  gas_price : Nat
  gas_limit : Nat
  «to» : Bytes
  value : Nat
  data : Bytes
  signature : Signature
  receipt : VerifiedReceipt
deriving DecidableEq

/-- `TxLegacy::payload_length`: every field width summed, the signature
components individually. -/
def TxLegacy.payload_length (t : TxLegacy) : Nat :=
  (rlpNat t.nonce).length + (rlpNat t.gas_price).length + (rlpNat t.gas_limit).length
    + (rlpBytes t.«to»).length + (rlpNat t.value).length + (rlpBytes t.data).length
    + (rlpNat t.signature.v).length + (rlpNat t.signature.r).length
    + (rlpNat t.signature.s).length

/-- The field encodings `TxLegacy::encode` emits after its list header. -/
def TxLegacy.fields (t : TxLegacy) : Bytes :=
  rlpNat t.nonce ++ rlpNat t.gas_price ++ rlpNat t.gas_limit
    ++ rlpBytes t.«to» ++ rlpNat t.value ++ rlpBytes t.data ++ t.signature.encode

/-- `TxLegacy::encode`: list header then the fields, no type tag. -/
def TxLegacy.encode (t : TxLegacy) : Bytes :=
  listHeader t.payload_length ++ t.fields

/-- `Tx2930` from `src/transaction.rs`. -/
structure Tx2930 where
  tx_type : Nat
  chain_id : Nat
  nonce : Nat
  gas_price : Nat
  gas_limit : Nat
  «to» : Bytes
  value : Nat
  data : Bytes
  signature : Signature
  access_list : List AccessListItem
  receipt : VerifiedReceipt
deriving DecidableEq

/-- `Tx2930::payload_length` as written: the last summand is
`self.signature.length()`, the derived list-form length of the signature
(header included), although `encode` emits the signature flat. -/
def Tx2930.payload_length (t : Tx2930) : Nat :=
  (rlpNat t.chain_id).length + (rlpNat t.nonce).length + (rlpNat t.gas_price).length
    + (rlpNat t.gas_limit).length + (rlpBytes t.«to»).length + (rlpNat t.value).length
    + (rlpBytes t.data).length + (accessListEncode t.access_list).length
    + t.signature.rlpLength

/-- The field encodings `Tx2930::encode` emits after its list header:
the signature arrives flat through the inherent `Signature::encode`. -/
def Tx2930.fields (t : Tx2930) : Bytes :=
  rlpNat t.chain_id ++ rlpNat t.nonce ++ rlpNat t.gas_price ++ rlpNat t.gas_limit
    ++ rlpBytes t.«to» ++ rlpNat t.value ++ rlpBytes t.data
    ++ accessListEncode t.access_list ++ t.signature.encode

/-- `Tx2930::encode`: the stored `tx_type` byte, the list header, then
the fields. -/
def Tx2930.encode (t : Tx2930) : Bytes :=
  t.tx_type :: (listHeader t.payload_length ++ t.fields)

/-- `Tx1559` from `src/transaction.rs`. -/
structure Tx1559 where
  tx_type : Nat
  chain_id : Nat
  nonce : Nat
  gas_limit : Nat
  «to» : Bytes
  value : Nat
  data : Bytes
  signature : Signature
  access_list : List AccessListItem
  max_fee_per_gas : Nat
  max_priority_fee_per_gas : Nat
  receipt : VerifiedReceipt
deriving DecidableEq

/-- `Tx1559::payload_length`: every field width summed, the signature
components individually. -/
def Tx1559.payload_length (t : Tx1559) : Nat :=
  (rlpNat t.chain_id).length + (rlpNat t.nonce).length
    + (rlpNat t.max_priority_fee_per_gas).length + (rlpNat t.max_fee_per_gas).length
    + (rlpNat t.gas_limit).length + (rlpBytes t.«to»).length + (rlpNat t.value).length
    + (rlpBytes t.data).length + (accessListEncode t.access_list).length
    + (rlpNat t.signature.v).length + (rlpNat t.signature.r).length
    + (rlpNat t.signature.s).length

/-- The field encodings `Tx1559::encode` emits after its list header. -/
def Tx1559.fields (t : Tx1559) : Bytes :=
  rlpNat t.chain_id ++ rlpNat t.nonce ++ rlpNat t.max_priority_fee_per_gas
    ++ rlpNat t.max_fee_per_gas ++ rlpNat t.gas_limit
    ++ rlpBytes t.«to» ++ rlpNat t.value ++ rlpBytes t.data
    ++ accessListEncode t.access_list ++ t.signature.encode

/-- `Tx1559::encode`: the stored `tx_type` byte, the list header, then
the fields. -/
def Tx1559.encode (t : Tx1559) : Bytes :=
  t.tx_type :: (listHeader t.payload_length ++ t.fields)

/-- `VerifiedTransaction` from `src/transaction.rs`. -/
inductive VerifiedTransaction where
  | Legacy : TxLegacy → VerifiedTransaction
  | Eip2930 : Tx2930 → VerifiedTransaction
  | Eip1559 : Tx1559 → VerifiedTransaction
deriving DecidableEq

/-- `VerifiedTransaction::encode`: dispatch to the variant encoder. -/
def VerifiedTransaction.encode : VerifiedTransaction → Bytes
  | .Legacy t => t.encode
  | .Eip2930 t => t.encode
  | .Eip1559 t => t.encode

/-- `VerifiedTransaction::receipt`. -/
def VerifiedTransaction.receipt : VerifiedTransaction → VerifiedReceipt
  | .Legacy t => t.receipt
  | .Eip2930 t => t.receipt
  | .Eip1559 t => t.receipt

/-- `u64::try_from` on a `u8` target followed by `unwrap`, modelled as the
fallible narrowing it is: values of 256 and above have no `u8` image. -/
def u8_try_from (n : Nat) : Option Nat :=
  if n < 256 then some n else none

/-- `U256::as_u64` (ethers): panics unless the value fits in 64 bits. -/
def as_u64 (n : Nat) : Option Nat :=
  if n < 2 ^ 64 then some n else none

/-- `U256::as_u128` (ethers): panics unless the value fits in 128 bits. -/
def as_u128 (n : Nat) : Option Nat :=
  if n < 2 ^ 128 then some n else none

/-- A log of an external `ethers` receipt: address, topics, data. -/
structure EthersLog where
  address : Bytes
  topics : List Bytes
  data : Bytes
deriving DecidableEq

/-- The slice of `ethers::types::TransactionReceipt` the adapter reads.
`transaction_type` and `status` are 64-bit values when present. -/
structure EthersReceipt where
  transaction_type : Option Nat
  status : Option Nat
  cumulative_gas_used : Nat
  logs : List EthersLog
  logs_bloom : Bytes
deriving DecidableEq

/-- `alloy_primitives::Log::new`: builds the log from address, topics and
data, but yields nothing when the topic list exceeds the four-topic limit
of a log. -/
def Log.new (address : Bytes) (topics : List Bytes) (data : Bytes) :
    Option Log :=
  if topics.length ≤ 4 then some { address := address, topics := topics, data := data }
  else none

/-- The `value.logs.iter().map(|log| Log::new(..).unwrap()).collect()`
loop of `src/receipt.rs`: convert every log in order, failing (as the
`unwrap` panics) at the first log `Log::new` rejects. -/
def convertLogs : List EthersLog → Option (List Log)
  | [] => some []
  | l :: ls =>
    match Log.new l.address l.topics l.data with
    | none => none
    | some lg =>
      match convertLogs ls with
      | none => none
      | some lgs => some (lg :: lgs)

/-- `From<&TransactionReceipt> for VerifiedReceipt` (`src/receipt.rs`).
The logs are converted first through `Log::new(..).unwrap()`, which fails
on a log with more than four topics; an absent status becomes `false`
(`map_or`), an absent type tag becomes no tag; a present type tag is
narrowed to `u8` with `u8::try_from(..).unwrap()`, the conversion's other
failure point. -/
def VerifiedReceipt.fromEthers (r : EthersReceipt) : Option VerifiedReceipt :=
  match convertLogs r.logs with
  | none => none
  | some logs =>
    let statusFlag : Bool :=
      match r.status with
      | some v => v == 1
      | none => false
    match r.transaction_type with
    | none =>
      some { transaction_type := none, status := statusFlag,
             cumulative_gas_used := r.cumulative_gas_used, logs := logs,
             logs_bloom := r.logs_bloom }
    | some t =>
      match u8_try_from t with
      | some t8 =>
        some { transaction_type := some t8, status := statusFlag,
               cumulative_gas_used := r.cumulative_gas_used, logs := logs,
               logs_bloom := r.logs_bloom }
      | none => none

/-- The slice of `ethers::types::Transaction` the adapter reads.  Fields
are at their `ethers` widths: `nonce`, `gas_price`, `gas`, `value`, `r`,
`s`, `chain_id` and the fee caps are 256-bit, `v` and `transaction_type`
are 64-bit, `to` and `access_list` are optional.  (The access-list items
are converted field by field into `AccessListItem`; the model carries them
in that shape already.) -/
structure EthersTransaction where
  transaction_type : Option Nat
  nonce : Nat
  gas_price : Option Nat
  gas : Nat
  «to» : Option Bytes
  value : Nat
  input : Bytes
  v : Nat
  r : Nat
  s : Nat
  chain_id : Option Nat
  access_list : Option (List AccessListItem)
  max_fee_per_gas : Option Nat
  max_priority_fee_per_gas : Option Nat
deriving DecidableEq

/-- `VerifiedTransaction::new` (`src/transaction.rs`): dispatch on the
type tag; each branch unwraps the fields its variant requires and narrows
the integers to their struct widths.  Every `unwrap`/narrowing panic of
the source is an `Option` failure here. -/
def VerifiedTransaction.new (tx : EthersTransaction) (rcpt : EthersReceipt) :
    Option VerifiedTransaction :=
  match tx.transaction_type with
  | some 0 =>
    match as_u64 tx.nonce with
    | none => none
    | some nonce =>
      match tx.gas_price with
      | none => none
      | some gasPriceRaw =>
        match as_u128 gasPriceRaw with
        | none => none
        | some gasPrice =>
          match as_u64 tx.gas with
          | none => none
          | some gasLimit =>
            match tx.«to» with
            | none => none
            | some toAddr =>
              match VerifiedReceipt.fromEthers rcpt with
              | none => none
              | some receipt =>
                some (.Legacy
                  { nonce := nonce, gas_price := gasPrice,
                    gas_limit := gasLimit, «to» := toAddr, value := tx.value,
                    data := tx.input,
                    signature := { v := tx.v, r := tx.r, s := tx.s },
                    receipt := receipt })
  | some 1 =>
    match tx.chain_id with
    | none => none
    | some chainIdRaw =>
      match as_u64 chainIdRaw with
      | none => none
      | some chainId =>
        match as_u64 tx.nonce with
        | none => none
        | some nonce =>
          match tx.gas_price with
          | none => none
          | some gasPriceRaw =>
            match as_u128 gasPriceRaw with
            | none => none
            | some gasPrice =>
              match as_u64 tx.gas with
              | none => none
              | some gasLimit =>
                match tx.«to» with
                | none => none
                | some toAddr =>
                  match tx.access_list with
                  | none => none
                  | some accessList =>
                    match VerifiedReceipt.fromEthers rcpt with
                    | none => none
                    | some receipt =>
                      some (.Eip2930
                        { tx_type := 1, chain_id := chainId, nonce := nonce,
                          gas_price := gasPrice, gas_limit := gasLimit,
                          «to» := toAddr, value := tx.value, data := tx.input,
                          signature := { v := tx.v, r := tx.r, s := tx.s },
                          access_list := accessList, receipt := receipt })
  | some 2 =>
    match tx.chain_id with
    | none => none
    | some chainIdRaw =>
      match as_u64 chainIdRaw with
      | none => none
      | some chainId =>
        match as_u64 tx.nonce with
        | none => none
        | some nonce =>
          match as_u64 tx.gas with
          | none => none
          | some gasLimit =>
            match tx.«to» with
            | none => none
            | some toAddr =>
              match tx.access_list with
              | none => none
              | some accessList =>
                match tx.max_fee_per_gas with
                | none => none
                | some maxFeeRaw =>
                  match as_u128 maxFeeRaw with
                  | none => none
                  | some maxFee =>
                    match tx.max_priority_fee_per_gas with
                    | none => none
                    | some maxPrioRaw =>
                      match as_u128 maxPrioRaw with
                      | none => none
                      | some maxPrio =>
                        match VerifiedReceipt.fromEthers rcpt with
                        | none => none
                        | some receipt =>
                          some (.Eip1559
                            { tx_type := 2, chain_id := chainId,
                              nonce := nonce, gas_limit := gasLimit,
                              «to» := toAddr, value := tx.value,
                              data := tx.input,
                              signature := { v := tx.v, r := tx.r, s := tx.s },
                              access_list := accessList,
                              max_fee_per_gas := maxFee,
                              max_priority_fee_per_gas := maxPrio,
                              receipt := receipt })
  | _ => none

/-- `BlockHeader` from `src/block.rs`. -/
structure BlockHeader where
  parent : Bytes
  uncles_hash : Bytes
  miner : Bytes
  state_root : Bytes
  transaction_root : Bytes
  receipts_root : Bytes
  logs_bloom : Bytes
  difficulty : Nat
  number : Nat
  gas_limit : Nat
  gas_used : Nat
  timestamp : Nat
  extra_data : Bytes
  mix_hash : Bytes
  nonce : Bytes
  base_fee_per_gas : Nat
  withdrawals_root : Bytes
deriving DecidableEq

/-- Header fields in declared order, each canonically encoded — the
payload of the derived `RlpEncodable` for `BlockHeader`. -/
def BlockHeader.payload (h : BlockHeader) : Bytes :=
  rlpBytes h.parent ++ rlpBytes h.uncles_hash ++ rlpBytes h.miner
    ++ rlpBytes h.state_root ++ rlpBytes h.transaction_root
    ++ rlpBytes h.receipts_root ++ rlpBytes h.logs_bloom
    ++ rlpNat h.difficulty ++ rlpNat h.number ++ rlpNat h.gas_limit
    ++ rlpNat h.gas_used ++ rlpNat h.timestamp ++ rlpBytes h.extra_data
    ++ rlpBytes h.mix_hash ++ rlpBytes h.nonce
    ++ rlpNat h.base_fee_per_gas ++ rlpBytes h.withdrawals_root

/-- Derived RLP for `BlockHeader`: list header then the field payload. -/
def BlockHeader.encode (h : BlockHeader) : Bytes :=
  listHeader h.payload.length ++ h.payload

/-- The slice of `ethers::prelude::Block` the adapter reads; optional
fields mirror the `unwrap` sites of `BlockHeader::from`. -/
structure EthersBlock where
  parent_hash : Bytes
  uncles_hash : Bytes
  author : Option Bytes
  state_root : Bytes
  transactions_root : Bytes
  receipts_root : Bytes
  logs_bloom : Option Bytes
  difficulty : Nat
  number : Option Nat
  gas_limit : Nat
  gas_used : Nat
  timestamp : Nat
  extra_data : Bytes
  mix_hash : Option Bytes
  nonce : Option Bytes
  base_fee_per_gas : Option Nat
  withdrawals_root : Option Bytes
  transactions : List EthersTransaction
deriving DecidableEq

/-- `From<&prelude::Block<T>> for BlockHeader` (`src/block.rs`): copy
every field, unwrapping the optional ones; note the caller-supplied
`transactions_root` is copied into `transaction_root` here (and later
overwritten by `Block::new`). -/
def BlockHeader.fromEthers (b : EthersBlock) : Option BlockHeader := do
  let author ← b.author
  let bloom ← b.logs_bloom
  let number ← b.number
  let mixHash ← b.mix_hash
  let nonce ← b.nonce
  let baseFee ← b.base_fee_per_gas
  let withdrawals ← b.withdrawals_root
  pure { parent := b.parent_hash, uncles_hash := b.uncles_hash,
         miner := author, state_root := b.state_root,
         transaction_root := b.transactions_root,
         receipts_root := b.receipts_root, logs_bloom := bloom,
         difficulty := b.difficulty, number := number,
         gas_limit := b.gas_limit, gas_used := b.gas_used,
         timestamp := b.timestamp, extra_data := b.extra_data,
         mix_hash := mixHash, nonce := nonce,
         base_fee_per_gas := baseFee, withdrawals_root := withdrawals }

/-- `Block` from `src/block.rs`.  `block.rs` stores its transactions as
`crate::transaction::Transaction`, a name whose defining module is not
under `src/`; per the spec (§3, §6) a block's transactions are the
system's transaction records, so the stored type is modelled as
`VerifiedTransaction`. -/
structure Block where
  hash : Bytes
  header : BlockHeader
  transactions : List VerifiedTransaction

/-- Fallback transaction for the (never reached in range) list-index
default. -/
def defaultTransaction : VerifiedTransaction :=
  .Legacy { nonce := 0, gas_price := 0, gas_limit := 0, «to» := [],
            value := 0, data := [], signature := { v := 0, r := 0, s := 0 },
            receipt := VerifiedReceipt.defaultReceipt }

/-- The leaves `Block::transaction_trie` hands to the trie engine, in
insertion order: at loop position `i` the source shadows `index` with
`index_for_rlp(index, n)` and uses the shadowed value both for the key
bytes and to select the transaction encoded into the leaf value. -/
def Block.transactionTrieLeaves (b : Block) : List (List Nat × Bytes) :=
  let n := b.transactions.length
  (List.range n).map (fun i =>
    let j := index_for_rlp i n
    (nibbles (rlpNat j), (b.transactions.getD j defaultTransaction).encode))

/-- `Block::transaction_trie`: insert the leaves and query the root.  The
trie engine (`alloy_trie::HashBuilder`) is an external collaborator; it is
abstracted as the function `root` of the inserted leaf list. -/
def Block.transaction_trie (root : List (List Nat × Bytes) → Bytes)
    (b : Block) : Bytes :=
  root b.transactionTrieLeaves

/-- `Block::new`: adapt the header, convert the transactions, overwrite
the header's transaction root with the recomputed trie root, then hash
the finished header.  `keccak` abstracts the external hash primitive and
`fromTx` the `Transaction::from` adapter (whose defining module is not
under `src/`). -/
def Block.new (keccak : Bytes → Bytes)
    (root : List (List Nat × Bytes) → Bytes)
    (fromTx : EthersTransaction → VerifiedTransaction)
    (eb : EthersBlock) : Option Block :=
  match BlockHeader.fromEthers eb with
  | none => none
  | some header =>
    let b0 : Block :=
      { hash := List.replicate 32 0, header := header,
        transactions := eb.transactions.map fromTx }
    let b1 : Block :=
      { b0 with header :=
          { b0.header with transaction_root := Block.transaction_trie root b0 } }
    some { b1 with hash := keccak (BlockHeader.encode b1.header) }

/-- `Block::verify_block_hash`: byte-for-byte equality of the stored
digest with the expected one. -/
def Block.verify_block_hash (b : Block) (hash : Bytes) : Bool :=
  b.hash == hash

/-! Concrete fixtures used to evaluate the model at specific inputs. -/

/-- A minimal legacy transaction (nonce 0). -/
def txA : TxLegacy :=
  { nonce := 0, gas_price := 0, gas_limit := 0, «to» := List.replicate 20 0,
    value := 0, data := [], signature := { v := 0, r := 0, s := 0 },
    receipt := VerifiedReceipt.defaultReceipt }

/-- A second legacy transaction, distinguished from `txA` by its nonce. -/
def txB : TxLegacy := { txA with nonce := 1 }

/-- An all-zero block header. -/
def zeroHeader : BlockHeader :=
  { parent := [], uncles_hash := [], miner := [], state_root := [],
    transaction_root := [], receipts_root := [], logs_bloom := [],
    difficulty := 0, number := 0, gas_limit := 0, gas_used := 0,
    timestamp := 0, extra_data := [], mix_hash := [], nonce := [],
    base_fee_per_gas := 0, withdrawals_root := [] }

/-- A two-transaction block whose transactions have distinct encodings. -/
def blockAB : Block :=
  { hash := [], header := zeroHeader,
    transactions := [.Legacy txA, .Legacy txB] }

/-- A minimal 2930 transaction with the tag its constructor assigns. -/
def smallTx2930 : Tx2930 :=
  { tx_type := 1, chain_id := 1, nonce := 0, gas_price := 0, gas_limit := 0,
    «to» := List.replicate 20 0, value := 0, data := [],
    signature := { v := 0, r := 0, s := 0 }, access_list := [],
    receipt := VerifiedReceipt.defaultReceipt }

/-- A 2930 transaction value whose stored `tx_type` field is 0 rather
than 1 — constructible because the field is public and stored. -/
def badTx2930 : Tx2930 := { smallTx2930 with tx_type := 0 }

/-- An external transaction with type tag 0 and every required field
present, whose 256-bit nonce does not fit in 64 bits. -/
def cTx7 : EthersTransaction :=
  { transaction_type := some 0, nonce := 2 ^ 64, gas_price := some 1,
    gas := 0, «to» := some (List.replicate 20 0), value := 0, input := [],
    v := 0, r := 0, s := 0, chain_id := some 1, access_list := some [],
    max_fee_per_gas := some 0, max_priority_fee_per_gas := some 0 }

/-- An external receipt with every optional field absent. -/
def cRcpt7 : EthersReceipt :=
  { transaction_type := none, status := none, cumulative_gas_used := 0,
    logs := [], logs_bloom := [] }

/-- An external 2930 transaction that converts successfully. -/
def etx2930W : EthersTransaction :=
  { transaction_type := some 1, nonce := 1, gas_price := some 1, gas := 1,
    «to» := some [], value := 0, input := [], v := 1, r := 1, s := 1,
    chain_id := some 1, access_list := some [],
    max_fee_per_gas := some 0, max_priority_fee_per_gas := some 0 }

/-- An external 1559 transaction that converts successfully. -/
def etx1559W : EthersTransaction := { etx2930W with transaction_type := some 2 }

/-- The receipt `cRcpt7` converted: no tag, false status. -/
def vrW : VerifiedReceipt :=
  { transaction_type := none, status := false, cumulative_gas_used := 0,
    logs := [], logs_bloom := [] }

/-- The 2930 record `VerifiedTransaction::new` builds from `etx2930W`. -/
def tx2930W : Tx2930 :=
  { tx_type := 1, chain_id := 1, nonce := 1, gas_price := 1, gas_limit := 1,
    «to» := [], value := 0, data := [],
    signature := { v := 1, r := 1, s := 1 }, access_list := [],
    receipt := vrW }

/-- The 1559 record `VerifiedTransaction::new` builds from `etx1559W`. -/
def tx1559W : Tx1559 :=
  { tx_type := 2, chain_id := 1, nonce := 1, gas_limit := 1, «to» := [],
    value := 0, data := [], signature := { v := 1, r := 1, s := 1 },
    access_list := [], max_fee_per_gas := 0, max_priority_fee_per_gas := 0,
    receipt := vrW }

/-- An external block record with every optional field present and no
transactions. -/
def ebW : EthersBlock :=
  { parent_hash := [], uncles_hash := [], author := some [],
    state_root := [], transactions_root := [1], receipts_root := [],
    logs_bloom := some [], difficulty := 0, number := some 0,
    gas_limit := 0, gas_used := 0, timestamp := 0, extra_data := [],
    mix_hash := some [], nonce := some [], base_fee_per_gas := some 0,
    withdrawals_root := some [], transactions := [] }

/-- The block `Block::new` produces from `ebW` when the hash collaborator
returns `[7]` and the trie collaborator returns `[9]`. -/
def bW : Block :=
  { hash := [7],
    header :=
      { parent := [], uncles_hash := [], miner := [], state_root := [],
        transaction_root := [9], receipts_root := [], logs_bloom := [],
        difficulty := 0, number := 0, gas_limit := 0, gas_used := 0,
        timestamp := 0, extra_data := [], mix_hash := [], nonce := [],
        base_fee_per_gas := 0, withdrawals_root := [] },
    transactions := [] }

/-! Helper lemmas. -/

theorem as_u64_eq_none (n : Nat) : as_u64 n = none ↔ 2 ^ 64 ≤ n := by
  simp only [as_u64]
  split_ifs with h <;> simp <;> omega

theorem as_u64_eq_some (n m : Nat) : as_u64 n = some m ↔ n < 2 ^ 64 ∧ m = n := by
  simp only [as_u64]
  split_ifs with h <;> simp <;> omega

theorem as_u128_eq_none (n : Nat) : as_u128 n = none ↔ 2 ^ 128 ≤ n := by
  simp only [as_u128]
  split_ifs with h <;> simp <;> omega

theorem as_u128_eq_some (n m : Nat) : as_u128 n = some m ↔ n < 2 ^ 128 ∧ m = n := by
  simp only [as_u128]
  split_ifs with h <;> simp <;> omega

theorem convertLogs_eq_none (ls : List EthersLog) :
    convertLogs ls = none ↔ ∃ l ∈ ls, 4 < l.topics.length := by
  induction ls with
  | nil => simp [convertLogs]
  | cons l ls ih =>
    simp only [convertLogs, Log.new]
    split_ifs with h4
    · dsimp only
      cases hc : convertLogs ls with
      | none =>
        obtain ⟨l2, hl2, ht2⟩ := ih.mp hc
        exact iff_of_true rfl ⟨l2, List.mem_cons_of_mem l hl2, ht2⟩
      | some lgs =>
        refine iff_of_false (by simp) ?_
        rintro ⟨l2, hl2, ht2⟩
        rcases List.mem_cons.mp hl2 with rfl | hmem
        · omega
        · exact absurd ((ih.mpr ⟨l2, hmem, ht2⟩).symm.trans hc) (by simp)
    · exact iff_of_true rfl ⟨l, List.mem_cons_self l ls, by omega⟩

theorem fromEthers_eq_none (r : EthersReceipt) :
    VerifiedReceipt.fromEthers r = none ↔
      ((∃ t, r.transaction_type = some t ∧ 256 ≤ t)
        ∨ ∃ l ∈ r.logs, 4 < l.topics.length) := by
  simp only [VerifiedReceipt.fromEthers]
  cases hc : convertLogs r.logs with
  | none =>
    exact iff_of_true rfl (Or.inr ((convertLogs_eq_none r.logs).mp hc))
  | some logs =>
    have hlogs : ¬ ∃ l ∈ r.logs, 4 < l.topics.length := by
      rw [← convertLogs_eq_none]
      simp [hc]
    dsimp only
    cases ht : r.transaction_type with
    | none =>
      refine iff_of_false (by simp) ?_
      rintro (⟨t, htt, hge⟩ | h)
      · exact Option.noConfusion htt
      · exact hlogs h
    | some t =>
      simp only [u8_try_from]
      split_ifs with h256
      · refine iff_of_false (by simp) ?_
        rintro (⟨t2, htt, hge⟩ | h)
        · rw [Option.some.injEq] at htt
          omega
        · exact hlogs h
      · refine iff_of_true rfl (Or.inl ⟨t, rfl, by omega⟩)

theorem index_for_rlp_mid (i n : Nat) (h1 : i + 1 < n) (h2 : n ≤ 128) :
    index_for_rlp i n = i + 1 := by
  simp only [index_for_rlp]
  split_ifs <;> omega

theorem index_for_rlp_last (n : Nat) (h1 : 1 ≤ n) (h2 : n ≤ 128) :
    index_for_rlp (n - 1) n = 0 := by
  simp only [index_for_rlp]
  split_ifs <;> omega

theorem rlpNat_small (a : Nat) (h0 : 0 < a) (h1 : a < 128) : rlpNat a = [a] := by
  simp only [rlpNat]
  rw [if_neg (by omega), if_pos (by omega)]

theorem key_lt_of_lt (a b : Nat) (h0 : 0 < a) (hab : a < b) (hb : b ≤ 127) :
    lexLt (nibbles (rlpNat a)) (nibbles (rlpNat b)) = true := by
  rw [rlpNat_small a h0 (by omega), rlpNat_small b (by omega) (by omega)]
  simp only [nibbles, lexLt]
  split_ifs <;> first | rfl | omega

theorem key_lt_zero (a : Nat) (h0 : 0 < a) (ha : a ≤ 127) :
    lexLt (nibbles (rlpNat a)) (nibbles (rlpNat 0)) = true := by
  rw [rlpNat_small a h0 (by omega)]
  have h128 : rlpNat 0 = [128] := rfl
  rw [h128]
  simp only [nibbles, lexLt]
  split_ifs <;> first | rfl | omega

theorem map_index_for_rlp (m : Nat) (h2 : m + 1 ≤ 128) :
    (List.range (m + 1)).map (fun i => index_for_rlp i (m + 1)) =
      List.range' 1 m ++ [0] := by
  rw [List.range_succ, List.map_append, List.map_singleton]
  congr 1
  · have hmap : List.range' 1 m = (List.range m).map (fun i => 1 + i) := by
      rw [List.range'_eq_map_range]
    rw [hmap]
    apply List.map_congr_left
    intro i hi
    rw [List.mem_range] at hi
    rw [index_for_rlp_mid i (m + 1) (by omega) h2]
    omega
  · have h := index_for_rlp_last (m + 1) (by omega) h2
    simpa using h

theorem listHeader_head_ge (p : Nat) :
    ∃ c cs, listHeader p = c :: cs ∧ 0xc0 ≤ c := by
  simp only [listHeader]
  split_ifs with h
  · exact ⟨0xc0 + p, [], rfl, by omega⟩
  · exact ⟨0xf7 + (beBytes p).length, beBytes p, rfl, by omega⟩

theorem fromEthers_set_root (eb : EthersBlock) (tr : Bytes) :
    BlockHeader.fromEthers { eb with transactions_root := tr }
      = (BlockHeader.fromEthers eb).map
          (fun hd => { hd with transaction_root := tr }) := by
  obtain ⟨pa, uh, au, sr, tro, rr, lb, df, num, gl, gu, ts, ed, mh, non, bf, wr, txs⟩ := eb
  cases au <;> cases lb <;> cases num <;> cases mh <;> cases non <;>
    cases bf <;> cases wr <;> rfl

theorem new_eip2930_tag (tx : EthersTransaction) (rcpt : EthersReceipt)
    (t : Tx2930) (h : VerifiedTransaction.new tx rcpt = some (.Eip2930 t)) :
    t.tx_type = 1 := by
  unfold VerifiedTransaction.new at h
  repeat' split at h
  all_goals (try simp_all)
  all_goals (rw [← h])

theorem new_eip1559_tag (tx : EthersTransaction) (rcpt : EthersReceipt)
    (t : Tx1559) (h : VerifiedTransaction.new tx rcpt = some (.Eip1559 t)) :
    t.tx_type = 2 := by
  unfold VerifiedTransaction.new at h
  repeat' split at h
  all_goals (try simp_all)
  all_goals (rw [← h])

theorem c7tag0 (tx : EthersTransaction) (rcpt : EthersReceipt)
    (htt : tx.transaction_type = some 0) :
    VerifiedTransaction.new tx rcpt = none ↔
      (tx.gas_price = none ∨ tx.«to» = none
        ∨ 2 ^ 64 ≤ tx.nonce ∨ 2 ^ 64 ≤ tx.gas
        ∨ (∃ g, tx.gas_price = some g ∧ 2 ^ 128 ≤ g)
        ∨ ((∃ t, rcpt.transaction_type = some t ∧ 256 ≤ t)
            ∨ ∃ l ∈ rcpt.logs, 4 < l.topics.length)) := by
  simp only [VerifiedTransaction.new, htt]
  cases hn : as_u64 tx.nonce with
  | none =>
    exact iff_of_true rfl
      (Or.inr (Or.inr (Or.inl ((as_u64_eq_none tx.nonce).mp hn))))
  | some nonce =>
    obtain ⟨hnb, -⟩ := (as_u64_eq_some tx.nonce nonce).mp hn
    dsimp only
    cases hgp : tx.gas_price with
    | none => exact iff_of_true rfl (Or.inl rfl)
    | some g =>
      dsimp only
      cases hg128 : as_u128 g with
      | none =>
        exact iff_of_true rfl
          (Or.inr (Or.inr (Or.inr (Or.inr (Or.inl
            ⟨g, rfl, (as_u128_eq_none g).mp hg128⟩)))))
      | some gasPrice =>
        obtain ⟨hgb, -⟩ := (as_u128_eq_some g gasPrice).mp hg128
        dsimp only
        cases hgl : as_u64 tx.gas with
        | none =>
          exact iff_of_true rfl
            (Or.inr (Or.inr (Or.inr (Or.inl ((as_u64_eq_none tx.gas).mp hgl)))))
        | some gasLimit =>
          obtain ⟨hglb, -⟩ := (as_u64_eq_some tx.gas gasLimit).mp hgl
          dsimp only
          cases hto : tx.«to» with
          | none => exact iff_of_true rfl (Or.inr (Or.inl rfl))
          | some a =>
            dsimp only
            cases hre : VerifiedReceipt.fromEthers rcpt with
            | none =>
              exact iff_of_true rfl
                (Or.inr (Or.inr (Or.inr (Or.inr (Or.inr
                  ((fromEthers_eq_none rcpt).mp hre))))))
            | some vr =>
              have hreN : ¬ ((∃ t, rcpt.transaction_type = some t ∧ 256 ≤ t)
                ∨ ∃ l ∈ rcpt.logs, 4 < l.topics.length) := by
                rw [← fromEthers_eq_none]
                simp [hre]
              refine iff_of_false (by simp) ?_
              rintro (h | h | h | h | ⟨g2, hg2, hge⟩ | h)
              · exact Option.noConfusion h
              · exact Option.noConfusion h
              · omega
              · omega
              · rw [Option.some.injEq] at hg2
                omega
              · exact hreN h

theorem c7tag1 (tx : EthersTransaction) (rcpt : EthersReceipt)
    (htt : tx.transaction_type = some 1) :
    VerifiedTransaction.new tx rcpt = none ↔
      (tx.chain_id = none ∨ tx.gas_price = none ∨ tx.«to» = none
        ∨ tx.access_list = none
        ∨ (∃ c, tx.chain_id = some c ∧ 2 ^ 64 ≤ c)
        ∨ 2 ^ 64 ≤ tx.nonce ∨ 2 ^ 64 ≤ tx.gas
        ∨ (∃ g, tx.gas_price = some g ∧ 2 ^ 128 ≤ g)
        ∨ ((∃ t, rcpt.transaction_type = some t ∧ 256 ≤ t)
            ∨ ∃ l ∈ rcpt.logs, 4 < l.topics.length)) := by
  simp only [VerifiedTransaction.new, htt]
  cases hci : tx.chain_id with
  | none => exact iff_of_true rfl (Or.inl rfl)
  | some c =>
    dsimp only
    cases hcu : as_u64 c with
    | none =>
      exact iff_of_true rfl
        (Or.inr (Or.inr (Or.inr (Or.inr (Or.inl
          ⟨c, rfl, (as_u64_eq_none c).mp hcu⟩)))))
    | some chainId =>
      obtain ⟨hcb, -⟩ := (as_u64_eq_some c chainId).mp hcu
      dsimp only
      cases hn : as_u64 tx.nonce with
      | none =>
        exact iff_of_true rfl
          (Or.inr (Or.inr (Or.inr (Or.inr (Or.inr (Or.inl
            ((as_u64_eq_none tx.nonce).mp hn)))))))
      | some nonce =>
        obtain ⟨hnb, -⟩ := (as_u64_eq_some tx.nonce nonce).mp hn
        dsimp only
        cases hgp : tx.gas_price with
        | none => exact iff_of_true rfl (Or.inr (Or.inl rfl))
        | some g =>
          dsimp only
          cases hg128 : as_u128 g with
          | none =>
            exact iff_of_true rfl
              (Or.inr (Or.inr (Or.inr (Or.inr (Or.inr (Or.inr (Or.inr (Or.inl
                ⟨g, rfl, (as_u128_eq_none g).mp hg128⟩))))))))
          | some gasPrice =>
            obtain ⟨hgb, -⟩ := (as_u128_eq_some g gasPrice).mp hg128
            dsimp only
            cases hgl : as_u64 tx.gas with
            | none =>
              exact iff_of_true rfl
                (Or.inr (Or.inr (Or.inr (Or.inr (Or.inr (Or.inr (Or.inl
                  ((as_u64_eq_none tx.gas).mp hgl))))))))
            | some gasLimit =>
              obtain ⟨hglb, -⟩ := (as_u64_eq_some tx.gas gasLimit).mp hgl
              dsimp only
              cases hto : tx.«to» with
              | none => exact iff_of_true rfl (Or.inr (Or.inr (Or.inl rfl)))
              | some a =>
                dsimp only
                cases hal : tx.access_list with
                | none =>
                  exact iff_of_true rfl (Or.inr (Or.inr (Or.inr (Or.inl rfl))))
                | some al =>
                  dsimp only
                  cases hre : VerifiedReceipt.fromEthers rcpt with
                  | none =>
                    exact iff_of_true rfl
                      (Or.inr (Or.inr (Or.inr (Or.inr (Or.inr (Or.inr (Or.inr
                        (Or.inr ((fromEthers_eq_none rcpt).mp hre)))))))))
                  | some vr =>
                    have hreN : ¬ ((∃ t, rcpt.transaction_type = some t ∧ 256 ≤ t)
                ∨ ∃ l ∈ rcpt.logs, 4 < l.topics.length) := by
                      rw [← fromEthers_eq_none]
                      simp [hre]
                    refine iff_of_false (by simp) ?_
                    rintro (h | h | h | h | ⟨c2, hc2, hce⟩ | h | h |
                      ⟨g2, hg2, hge⟩ | h)
                    · exact Option.noConfusion h
                    · exact Option.noConfusion h
                    · exact Option.noConfusion h
                    · exact Option.noConfusion h
                    · rw [Option.some.injEq] at hc2
                      omega
                    · omega
                    · omega
                    · rw [Option.some.injEq] at hg2
                      omega
                    · exact hreN h

theorem c7tag2 (tx : EthersTransaction) (rcpt : EthersReceipt)
    (htt : tx.transaction_type = some 2) :
    VerifiedTransaction.new tx rcpt = none ↔
      (tx.chain_id = none ∨ tx.«to» = none ∨ tx.access_list = none
        ∨ tx.max_fee_per_gas = none ∨ tx.max_priority_fee_per_gas = none
        ∨ (∃ c, tx.chain_id = some c ∧ 2 ^ 64 ≤ c)
        ∨ 2 ^ 64 ≤ tx.nonce ∨ 2 ^ 64 ≤ tx.gas
        ∨ (∃ f, tx.max_fee_per_gas = some f ∧ 2 ^ 128 ≤ f)
        ∨ (∃ f, tx.max_priority_fee_per_gas = some f ∧ 2 ^ 128 ≤ f)
        ∨ ((∃ t, rcpt.transaction_type = some t ∧ 256 ≤ t)
            ∨ ∃ l ∈ rcpt.logs, 4 < l.topics.length)) := by
  simp only [VerifiedTransaction.new, htt]
  cases hci : tx.chain_id with
  | none => exact iff_of_true rfl (Or.inl rfl)
  | some c =>
    dsimp only
    cases hcu : as_u64 c with
    | none =>
      exact iff_of_true rfl
        (Or.inr (Or.inr (Or.inr (Or.inr (Or.inr (Or.inl
          ⟨c, rfl, (as_u64_eq_none c).mp hcu⟩))))))
    | some chainId =>
      obtain ⟨hcb, -⟩ := (as_u64_eq_some c chainId).mp hcu
      dsimp only
      cases hn : as_u64 tx.nonce with
      | none =>
        exact iff_of_true rfl
          (Or.inr (Or.inr (Or.inr (Or.inr (Or.inr (Or.inr (Or.inl
            ((as_u64_eq_none tx.nonce).mp hn))))))))
      | some nonce =>
        obtain ⟨hnb, -⟩ := (as_u64_eq_some tx.nonce nonce).mp hn
        dsimp only
        cases hgl : as_u64 tx.gas with
        | none =>
          exact iff_of_true rfl
            (Or.inr (Or.inr (Or.inr (Or.inr (Or.inr (Or.inr (Or.inr (Or.inl
              ((as_u64_eq_none tx.gas).mp hgl)))))))))
        | some gasLimit =>
          obtain ⟨hglb, -⟩ := (as_u64_eq_some tx.gas gasLimit).mp hgl
          dsimp only
          cases hto : tx.«to» with
          | none => exact iff_of_true rfl (Or.inr (Or.inl rfl))
          | some a =>
            dsimp only
            cases hal : tx.access_list with
            | none => exact iff_of_true rfl (Or.inr (Or.inr (Or.inl rfl)))
            | some al =>
              dsimp only
              cases hmf : tx.max_fee_per_gas with
              | none =>
                exact iff_of_true rfl (Or.inr (Or.inr (Or.inr (Or.inl rfl))))
              | some mf =>
                dsimp only
                cases hmfu : as_u128 mf with
                | none =>
                  exact iff_of_true rfl
                    (Or.inr (Or.inr (Or.inr (Or.inr (Or.inr (Or.inr (Or.inr
                      (Or.inr (Or.inl ⟨mf, rfl, (as_u128_eq_none mf).mp hmfu⟩)))))))))
                | some maxFee =>
                  obtain ⟨hmfb, -⟩ := (as_u128_eq_some mf maxFee).mp hmfu
                  dsimp only
                  cases hmp : tx.max_priority_fee_per_gas with
                  | none =>
                    exact iff_of_true rfl
                      (Or.inr (Or.inr (Or.inr (Or.inr (Or.inl rfl)))))
                  | some mp =>
                    dsimp only
                    cases hmpu : as_u128 mp with
                    | none =>
                      exact iff_of_true rfl
                        (Or.inr (Or.inr (Or.inr (Or.inr (Or.inr (Or.inr (Or.inr
                          (Or.inr (Or.inr (Or.inl
                            ⟨mp, rfl, (as_u128_eq_none mp).mp hmpu⟩))))))))))
                    | some maxPrio =>
                      obtain ⟨hmpb, -⟩ := (as_u128_eq_some mp maxPrio).mp hmpu
                      dsimp only
                      cases hre : VerifiedReceipt.fromEthers rcpt with
                      | none =>
                        exact iff_of_true rfl
                          (Or.inr (Or.inr (Or.inr (Or.inr (Or.inr (Or.inr (Or.inr
                            (Or.inr (Or.inr (Or.inr
                              ((fromEthers_eq_none rcpt).mp hre)))))))))))
                      | some vr =>
                        have hreN : ¬ ((∃ t, rcpt.transaction_type = some t ∧ 256 ≤ t)
                ∨ ∃ l ∈ rcpt.logs, 4 < l.topics.length) := by
                          rw [← fromEthers_eq_none]
                          simp [hre]
                        refine iff_of_false (by simp) ?_
                        rintro (h | h | h | h | h | ⟨c2, hc2, hce⟩ | h | h |
                          ⟨f2, hf2, hfe⟩ | ⟨p2, hp2, hpe⟩ | h)
                        · exact Option.noConfusion h
                        · exact Option.noConfusion h
                        · exact Option.noConfusion h
                        · exact Option.noConfusion h
                        · exact Option.noConfusion h
                        · rw [Option.some.injEq] at hc2
                          omega
                        · omega
                        · omega
                        · rw [Option.some.injEq] at hf2
                          omega
                        · rw [Option.some.injEq] at hp2
                          omega
                        · exact hreN h


/-! Claim theorems. -/

/-- Claim C1, counterexample to the claim as stated: in the
two-transaction block `blockAB` the leaf inserted at loop position 0
carries the encoding of the transaction at position `rewrite(0,2) = 1`,
not the encoding of the transaction at position 0. -/
theorem c1_counterexample :
    ((Block.transactionTrieLeaves blockAB).getD 0 ([], [])).2
        = VerifiedTransaction.encode (.Legacy txB)
    ∧ ((Block.transactionTrieLeaves blockAB).getD 0 ([], [])).2
        ≠ VerifiedTransaction.encode (.Legacy txA) := by
  constructor <;> decide

/-- Claim C1 (amended): for each position `i` of a block with `n`
transactions, the trie builder inserts one leaf whose key is the nibble
expansion of the canonical integer encoding of `rewrite(i, n)` and whose
value is the canonical encoding of the transaction at position
`rewrite(i, n)` (so that, `rewrite` being a permutation, the finished trie
maps the key of every index `j` to the transaction at `j`), and the
builder returns the trie engine's root digest over those leaves. -/
theorem c1_trie_leaf_characterization
    (root : List (List Nat × Bytes) → Bytes) (b : Block) (i : Nat)
    (hi : i < b.transactions.length) :
    (Block.transactionTrieLeaves b).getD i ([], [])
        = (nibbles (rlpNat (index_for_rlp i b.transactions.length)),
           (b.transactions.getD (index_for_rlp i b.transactions.length)
              defaultTransaction).encode)
    ∧ Block.transaction_trie root b = root (Block.transactionTrieLeaves b) := by
  refine ⟨?_, rfl⟩
  have hlen : i < (Block.transactionTrieLeaves b).length := by
    simpa [Block.transactionTrieLeaves] using hi
  rw [List.getD_eq_getElem _ _ hlen]
  simp [Block.transactionTrieLeaves]

/-- Witness for C1's amended theorem at `blockAB`, position 0. -/
theorem c1_witness :
    0 < blockAB.transactions.length
    ∧ ((Block.transactionTrieLeaves blockAB).getD 0 ([], [])
          = (nibbles (rlpNat (index_for_rlp 0 blockAB.transactions.length)),
             (blockAB.transactions.getD
                (index_for_rlp 0 blockAB.transactions.length)
                defaultTransaction).encode)
        ∧ Block.transaction_trie (fun _ => []) blockAB
            = (fun _ => ([] : Bytes)) (Block.transactionTrieLeaves blockAB)) :=
  ⟨by decide, c1_trie_leaf_characterization (fun _ => []) blockAB 0 (by decide)⟩

/-- Claim C2: for a well-formed external block record (one on which the
header adapter succeeds), `Block::new` produces a block whose header's
transaction root equals the trie builder's root over the block's own
transaction list, whose stored hash is the hash of the canonical encoding
of the finished header, and whose result ignores any caller-supplied
transactions root. -/
theorem c2_block_new_root_and_hash (keccak : Bytes → Bytes)
    (root : List (List Nat × Bytes) → Bytes)
    (fromTx : EthersTransaction → VerifiedTransaction)
    (eb : EthersBlock) (b : Block)
    (hb : Block.new keccak root fromTx eb = some b) :
    b.header.transaction_root = Block.transaction_trie root b
    ∧ b.hash = keccak (BlockHeader.encode b.header)
    ∧ ∀ tr : Bytes,
        Block.new keccak root fromTx { eb with transactions_root := tr }
          = some b := by
  unfold Block.new at hb
  cases hfe : BlockHeader.fromEthers eb with
  | none =>
    rw [hfe] at hb
    exact absurd hb (by simp)
  | some hd =>
    rw [hfe] at hb
    obtain rfl := Option.some.inj hb
    refine ⟨rfl, rfl, ?_⟩
    intro tr
    unfold Block.new
    rw [fromEthers_set_root, hfe]
    rfl

/-- Witness for C2 at the concrete block record `ebW` with constant
collaborators. -/
theorem c2_witness :
    bW.header.transaction_root = Block.transaction_trie (fun _ => [9]) bW
    ∧ bW.hash = (fun _ : Bytes => ([7] : Bytes)) (BlockHeader.encode bW.header)
    ∧ Block.new (fun _ => [7]) (fun _ => [9]) (fun _ => defaultTransaction)
        { ebW with transactions_root := [5] } = some bW :=
  have h := c2_block_new_root_and_hash (fun _ => [7]) (fun _ => [9])
    (fun _ => defaultTransaction) ebW bW rfl
  ⟨h.1, h.2.1, h.2.2 [5]⟩

/-- Claim C3: `verify_block_hash` returns true exactly when the stored
identity digest equals the expected hash byte for byte; it is a total
boolean function, so a false result is an ordinary return value, not a
panic. -/
theorem c3_verify_block_hash_iff (b : Block) (h : Bytes) :
    Block.verify_block_hash b h = true ↔ b.hash = h := by
  simp [Block.verify_block_hash]

/-- Claim C4, counterexample to the claim as stated: for the concrete 2930
transaction `smallTx2930` the bytes emitted after the list header do not
number `payload_length` — the written header overcounts by the length of
the signature's derived nested-list header. -/
theorem c4_counterexample :
    (Tx2930.fields smallTx2930).length ≠ Tx2930.payload_length smallTx2930 := by
  decide

/-- Claim C4 (amended): for the Legacy and 1559 variants the list header's
payload length equals the byte count of the field encodings emitted after
it; for the 2930 variant the written payload length exceeds the emitted
field bytes by the size of a list header for the signature's v,r,s
payload, because `payload_length` sums the signature's derived list-form
length while `encode` emits the signature flat. -/
theorem c4_payload_length_amended :
    (∀ t : TxLegacy, TxLegacy.encode t = listHeader t.payload_length ++ t.fields
        ∧ (TxLegacy.fields t).length = t.payload_length)
    ∧ (∀ t : Tx1559, Tx1559.encode t
          = t.tx_type :: (listHeader t.payload_length ++ t.fields)
        ∧ (Tx1559.fields t).length = t.payload_length)
    ∧ (∀ t : Tx2930, Tx2930.encode t
          = t.tx_type :: (listHeader t.payload_length ++ t.fields)
        ∧ t.payload_length = (Tx2930.fields t).length
            + (listHeader t.signature.rlpPayloadLength).length) := by
  refine ⟨fun t => ⟨rfl, ?_⟩, fun t => ⟨rfl, ?_⟩, fun t => ⟨rfl, ?_⟩⟩
  · simp only [TxLegacy.fields, TxLegacy.payload_length, Signature.encode,
      List.length_append]
    omega
  · simp only [Tx1559.fields, Tx1559.payload_length, Signature.encode,
      List.length_append]
    omega
  · simp only [Tx2930.fields, Tx2930.payload_length, Signature.encode,
      Signature.rlpLength, Signature.rlpPayloadLength, List.length_append]
    omega

/-- Claim C5: evaluation of the receipt encoder at the default receipt.
The written list header carries `payload_length` 261 (it counts the
number of logs, `logs.len()`), while the members actually emitted after
the header — status, gas, bloom and the encoded log list — occupy 262
bytes: the header understates the payload by the difference between the
log list's encoded length and the log count. -/
theorem c5_receipt_payload_length_bug :
    VerifiedReceipt.payload_length VerifiedReceipt.defaultReceipt = 261
    ∧ (VerifiedReceipt.members VerifiedReceipt.defaultReceipt).length = 262
    ∧ VerifiedReceipt.encode VerifiedReceipt.defaultReceipt
        = listHeader (VerifiedReceipt.payload_length VerifiedReceipt.defaultReceipt)
            ++ VerifiedReceipt.members VerifiedReceipt.defaultReceipt := by
  refine ⟨by decide, by decide, rfl⟩

/-- Claim C6: for every `n ≤ 128` the rewritten indices
`rewrite(0,n), …, rewrite(n-1,n)` are a permutation of `0..n`, and their
canonically-encoded nibble keys are strictly ascending in original index
order. -/
theorem c6_rewrite_perm_ascending (n : Nat) (hn : n ≤ 128) :
    ((List.range n).map (fun i => index_for_rlp i n)).Perm (List.range n)
    ∧ (List.range n).Pairwise
        (fun i j => lexLt (nibbles (rlpNat (index_for_rlp i n)))
          (nibbles (rlpNat (index_for_rlp j n))) = true) := by
  cases n with
  | zero => refine ⟨?_, ?_⟩ <;> simp
  | succ m =>
    constructor
    · rw [map_index_for_rlp m hn]
      have hsplit : List.range (m + 1) = 0 :: List.range' 1 m := by
        rw [List.range_eq_range', List.range'_succ]
      rw [hsplit]
      exact List.perm_append_singleton 0 (List.range' 1 m)
    · rw [List.pairwise_iff_getElem]
      intro i j hi hj hij
      rw [List.length_range] at hi hj
      simp only [List.getElem_range]
      by_cases hjm : j = m
      · rw [hjm]
        have hlast := index_for_rlp_last (m + 1) (by omega) hn
        have hm : m + 1 - 1 = m := by omega
        rw [hm] at hlast
        rw [hlast, index_for_rlp_mid i (m + 1) (by omega) hn]
        exact key_lt_zero (i + 1) (by omega) (by omega)
      · rw [index_for_rlp_mid i (m + 1) (by omega) hn,
          index_for_rlp_mid j (m + 1) (by omega) hn]
        exact key_lt_of_lt (i + 1) (j + 1) (by omega) (by omega) (by omega)

/-- Witness for C6 at `n = 5`. -/
theorem c6_witness :
    5 ≤ 128
    ∧ (((List.range 5).map (fun i => index_for_rlp i 5)).Perm (List.range 5)
        ∧ (List.range 5).Pairwise
            (fun i j => lexLt (nibbles (rlpNat (index_for_rlp i 5)))
              (nibbles (rlpNat (index_for_rlp j 5))) = true)) :=
  ⟨by decide, c6_rewrite_perm_ascending 5 (by decide)⟩

/-- Claim C7, counterexample to the claim as stated: an external
transaction with type tag 0 and every required field present on which
construction nevertheless fails, because its 256-bit nonce does not fit
the 64-bit nonce field. -/
theorem c7_counterexample :
    VerifiedTransaction.new cTx7 cRcpt7 = none
    ∧ cTx7.transaction_type = some 0
    ∧ cTx7.gas_price ≠ none
    ∧ cTx7.«to» ≠ none := by
  refine ⟨rfl, rfl, by decide, by decide⟩

/-- Claim C7 (amended): constructing a `VerifiedTransaction` from an
external transaction and receipt fails exactly when the type tag is
absent or not one of 0, 1, 2; or a field required by the detected type is
absent (gas price for Legacy and 2930, chain id and access list for
2930/1559, both fee caps for 1559, recipient for all); or a 256-bit
integer field exceeds the width it is narrowed to (nonce, gas limit and
chain id to 64 bits, gas price and fee caps to 128 bits); or the
receipt's type tag exceeds 255; or a receipt log carries more than four
topics (the `Log::new(..).unwrap()` of the receipt adapter).  In
particular a missing required field always fails and is never silently
defaulted. -/
theorem c7_new_failure_characterization (tx : EthersTransaction)
    (rcpt : EthersReceipt) :
    VerifiedTransaction.new tx rcpt = none ↔
      (match tx.transaction_type with
        | some 0 =>
          tx.gas_price = none ∨ tx.«to» = none
            ∨ 2 ^ 64 ≤ tx.nonce ∨ 2 ^ 64 ≤ tx.gas
            ∨ (∃ g, tx.gas_price = some g ∧ 2 ^ 128 ≤ g)
            ∨ ((∃ t, rcpt.transaction_type = some t ∧ 256 ≤ t)
                ∨ ∃ l ∈ rcpt.logs, 4 < l.topics.length)
        | some 1 =>
          tx.chain_id = none ∨ tx.gas_price = none ∨ tx.«to» = none
            ∨ tx.access_list = none
            ∨ (∃ c, tx.chain_id = some c ∧ 2 ^ 64 ≤ c)
            ∨ 2 ^ 64 ≤ tx.nonce ∨ 2 ^ 64 ≤ tx.gas
            ∨ (∃ g, tx.gas_price = some g ∧ 2 ^ 128 ≤ g)
            ∨ ((∃ t, rcpt.transaction_type = some t ∧ 256 ≤ t)
                ∨ ∃ l ∈ rcpt.logs, 4 < l.topics.length)
        | some 2 =>
          tx.chain_id = none ∨ tx.«to» = none ∨ tx.access_list = none
            ∨ tx.max_fee_per_gas = none ∨ tx.max_priority_fee_per_gas = none
            ∨ (∃ c, tx.chain_id = some c ∧ 2 ^ 64 ≤ c)
            ∨ 2 ^ 64 ≤ tx.nonce ∨ 2 ^ 64 ≤ tx.gas
            ∨ (∃ f, tx.max_fee_per_gas = some f ∧ 2 ^ 128 ≤ f)
            ∨ (∃ f, tx.max_priority_fee_per_gas = some f ∧ 2 ^ 128 ≤ f)
            ∨ ((∃ t, rcpt.transaction_type = some t ∧ 256 ≤ t)
                ∨ ∃ l ∈ rcpt.logs, 4 < l.topics.length)
        | _ => True) := by
  rcases htt : tx.transaction_type with _ | (_ | _ | _ | k)
  · exact iff_of_true (by simp [VerifiedTransaction.new, htt]) trivial
  · simpa using c7tag0 tx rcpt htt
  · simpa using c7tag1 tx rcpt htt
  · simpa using c7tag2 tx rcpt htt
  · exact iff_of_true (by simp [VerifiedTransaction.new, htt]) trivial

/-- Claim C8, counterexample to the claim as stated: the leading byte of
a 2930 transaction's encoding is the stored public `tx_type` field, not
intrinsically `0x01` — the value `badTx2930` carries `tx_type = 0` and
its encoding begins with byte 0. -/
theorem c8_counterexample :
    (VerifiedTransaction.encode (.Eip2930 badTx2930)).headD 0 = 0
    ∧ (VerifiedTransaction.encode (.Eip2930 badTx2930)).headD 0 ≠ 1 := by
  refine ⟨rfl, by decide⟩

/-- Claim C8 (amended): encoding is deterministic; a 2930 or 1559
encoding begins with the variant's stored `tx_type` byte, which
`VerifiedTransaction::new` always sets to 1 (2930) respectively 2 (1559);
a Legacy encoding carries no tag byte — its first byte is a list header
byte, at least `0xc0`. -/
theorem c8_encode_deterministic_tag_discipline :
    (∀ t : VerifiedTransaction, t.encode = t.encode)
    ∧ (∀ t : Tx2930, VerifiedTransaction.encode (.Eip2930 t)
        = t.tx_type :: (listHeader t.payload_length ++ t.fields))
    ∧ (∀ t : Tx1559, VerifiedTransaction.encode (.Eip1559 t)
        = t.tx_type :: (listHeader t.payload_length ++ t.fields))
    ∧ (∀ (tx : EthersTransaction) (rcpt : EthersReceipt) (t : Tx2930),
        VerifiedTransaction.new tx rcpt = some (.Eip2930 t) → t.tx_type = 1)
    ∧ (∀ (tx : EthersTransaction) (rcpt : EthersReceipt) (t : Tx1559),
        VerifiedTransaction.new tx rcpt = some (.Eip1559 t) → t.tx_type = 2)
    ∧ (∀ t : TxLegacy, ∃ c cs,
        VerifiedTransaction.encode (.Legacy t) = c :: cs ∧ 0xc0 ≤ c) := by
  refine ⟨fun _ => rfl, fun _ => rfl, fun _ => rfl,
    new_eip2930_tag, new_eip1559_tag, fun t => ?_⟩
  obtain ⟨c, cs, hc, hge⟩ := listHeader_head_ge t.payload_length
  exact ⟨c, cs ++ t.fields, by
    simp only [VerifiedTransaction.encode, TxLegacy.encode, hc]
    rfl, hge⟩

/-- Witness for C8's constructor-tag conjuncts at concrete convertible
transactions. -/
theorem c8_witness : tx2930W.tx_type = 1 ∧ tx1559W.tx_type = 2 :=
  ⟨c8_encode_deterministic_tag_discipline.2.2.2.1 etx2930W cRcpt7 tx2930W rfl,
   c8_encode_deterministic_tag_discipline.2.2.2.2.1 etx1559W cRcpt7 tx1559W rfl⟩

/-- Claim C9: the embedded execution receipt never influences a
transaction's canonical encoding — two transactions of the same variant
that differ only in the receipt field encode identically. -/
theorem c9_receipt_independent_encoding :
    (∀ (t : TxLegacy) (r₁ r₂ : VerifiedReceipt),
        TxLegacy.encode { t with receipt := r₁ }
          = TxLegacy.encode { t with receipt := r₂ })
    ∧ (∀ (t : Tx2930) (r₁ r₂ : VerifiedReceipt),
        Tx2930.encode { t with receipt := r₁ }
          = Tx2930.encode { t with receipt := r₂ })
    ∧ (∀ (t : Tx1559) (r₁ r₂ : VerifiedReceipt),
        Tx1559.encode { t with receipt := r₁ }
          = Tx1559.encode { t with receipt := r₂ }) :=
  ⟨fun _ _ _ => rfl, fun _ _ _ => rfl, fun _ _ _ => rfl⟩

/-- Claim C10: converting an external receipt never fails on an absent
status — an absent status maps to `false`, an absent type tag maps to no
leading tag byte, and whether the conversion fails is independent of the
status field entirely (failure comes only from an oversized type tag or
a log with more than four topics, never from absence of status). -/
theorem c10_receipt_absent_fields :
    (∀ r : EthersReceipt, r.status = none →
        ∀ vr, VerifiedReceipt.fromEthers r = some vr → vr.status = false)
    ∧ (∀ r : EthersReceipt, r.transaction_type = none →
        ∀ vr, VerifiedReceipt.fromEthers r = some vr →
          vr.transaction_type = none)
    ∧ (∀ (r : EthersReceipt) (s : Option Nat),
        VerifiedReceipt.fromEthers { r with status := s } = none
          ↔ VerifiedReceipt.fromEthers r = none)
    ∧ (∀ r : EthersReceipt, VerifiedReceipt.fromEthers r = none →
        (∃ t, r.transaction_type = some t ∧ 256 ≤ t)
          ∨ ∃ l ∈ r.logs, 4 < l.topics.length) := by
  refine ⟨?_, ?_, ?_, ?_⟩
  · intro r hs vr hvr
    simp only [VerifiedReceipt.fromEthers, hs, u8_try_from] at hvr
    split at hvr
    · exact Option.noConfusion hvr
    · split at hvr
      · obtain rfl := Option.some.inj hvr
        rfl
      · split at hvr
        · obtain rfl := Option.some.inj hvr
          rfl
        · exact Option.noConfusion hvr
  · intro r ht vr hvr
    simp only [VerifiedReceipt.fromEthers, ht] at hvr
    split at hvr
    · exact Option.noConfusion hvr
    · obtain rfl := Option.some.inj hvr
      rfl
  · intro r s
    rw [fromEthers_eq_none, fromEthers_eq_none]
  · intro r hnone
    exact (fromEthers_eq_none r).mp hnone

/-- Witness for C10 at the all-absent receipt `cRcpt7`, which converts to
`vrW`. -/
theorem c10_witness : vrW.status = false ∧ vrW.transaction_type = none :=
  ⟨c10_receipt_absent_fields.1 cRcpt7 rfl vrW rfl,
   c10_receipt_absent_fields.2.1 cRcpt7 rfl vrW rfl⟩

end ProofEth

